import Mathlib

/-!
Ray-sphere intersection (`rayt-cpp/sphere.hpp`).

A shallow embedding of `get_sphere_uv`, `sphere::hit` and
`sphere::bounding_box`, followed by the properties proved about them.

The C++ `double` is idealised as an ordered field `F`; the definitions are
generic (and computable) in `F`, and the theorems are stated over `ℝ` with the
mathematical `sqrt`, `atan2`, `asin` and `pi`, except where they hold over every
ordered field.
-/

namespace rayt

/-! ## Substrate: vectors, rays, hit records, boxes -/

/-- Modelled from the spec: `vec3.hpp` is not part of the source tree; a
three-component vector with the usual component-wise operations. -/
@[ext]
structure vec3 (F : Type) where
  x : F
  y : F
  z : F

/-- Modelled from the spec: `point3` is the alias of `vec3` used for positions. -/
abbrev point3 (F : Type) := vec3 F

/-- Modelled from the spec: the C math library functions and the constant `pi`
used by `sphere.hpp` (`sqrt`, `atan2`, `asin` from `<cmath>`, `pi` from the
missing utility header), taken as a parameter of the embedding. -/
structure cmath (F : Type) where
  sqrt : F → F
  atan2 : F → F → F
  asin : F → F
  pi : F

section substrate

variable {F : Type} [LinearOrderedField F]

instance : Add (vec3 F) := ⟨fun u v => ⟨u.x + v.x, u.y + v.y, u.z + v.z⟩⟩
instance : Sub (vec3 F) := ⟨fun u v => ⟨u.x - v.x, u.y - v.y, u.z - v.z⟩⟩
instance : Neg (vec3 F) := ⟨fun v => ⟨-v.x, -v.y, -v.z⟩⟩
instance : HMul F (vec3 F) (vec3 F) := ⟨fun t v => ⟨t * v.x, t * v.y, t * v.z⟩⟩
instance : HDiv (vec3 F) F (vec3 F) := ⟨fun v t => ⟨v.x / t, v.y / t, v.z / t⟩⟩

/-- Modelled from the spec: dot product of `vec3.hpp`. -/
def dot (u v : vec3 F) : F := u.x * v.x + u.y * v.y + u.z * v.z

/-- Modelled from the spec: squared Euclidean length, `vec3::length_squared`. -/
def vec3.length_squared (v : vec3 F) : F := v.x * v.x + v.y * v.y + v.z * v.z

/-- Modelled from the spec: Euclidean length, `vec3::length`, the square root
of `length_squared`. -/
def vec3.length (m : cmath F) (v : vec3 F) : F := m.sqrt v.length_squared

/-- Modelled from the spec: `ray.hpp` is not part of the source tree; a ray is
an origin and a direction. -/
structure ray (F : Type) where
  origin : point3 F
  direction : vec3 F

/-- Modelled from the spec: `ray::at`, the point-at-parameter operation
`origin + t*direction`. -/
def ray.at (r : ray F) (t : F) : point3 F := r.origin + t * r.direction

/-- Modelled from the spec: `hit_record` of the missing `hittable.hpp`; the
material is held by reference, here a value of an arbitrary type `M`. -/
structure hit_record (F M : Type) where
  p : point3 F
  normal : vec3 F
  mat_ptr : M
  t : F
  u : F
  v : F
  front_face : Bool

/-- Modelled from the spec: `hit_record::set_face_normal` of the missing
`hittable.hpp`: `front_face` is `dot(direction, outward_normal) < 0` and the
stored normal is the outward normal if `front_face`, else its negation. -/
def hit_record.set_face_normal {M : Type} (rec : hit_record F M) (r : ray F)
    (outward_normal : vec3 F) : hit_record F M :=
  let front_face : Bool := decide (dot r.direction outward_normal < 0)
  { rec with
    front_face := front_face
    normal := if front_face then outward_normal else -outward_normal }

/-- Modelled from the spec: `aabb` of the missing `aabb.hpp`, a box given by
its minimum and maximum corner. -/
structure aabb (F : Type) where
  minCorner : point3 F
  maxCorner : point3 F

end substrate

/-! ## The source: `sphere.hpp` -/

section source

variable {F : Type} [LinearOrderedField F] {M : Type}

/-- Embedding of `get_sphere_uv` (sphere.hpp 19-24); the two output references
are returned as the pair `(u, v)`. -/
def get_sphere_uv (m : cmath F) (p : vec3 F) : F × F :=
  let phi := m.atan2 p.z p.x
  let theta := m.asin p.y
  let u := 1 - (phi + m.pi) / (2 * m.pi)
  let v := (theta + m.pi / 2) / m.pi
  (u, v)

/-- Embedding of `class sphere` (sphere.hpp 26-42): centre, radius, material. -/
structure sphere (F M : Type) where
  center : point3 F
  radius : F
  mat_ptr : M

/-- Embedding of `sphere::hit` (sphere.hpp 44-78). The in/out parameter `rec`
is threaded through: the result is the returned flag and the record after the
call. -/
def sphere.hit (m : cmath F) (s : sphere F M) (r : ray F) (t_min t_max : F)
    (rec : hit_record F M) : Bool × hit_record F M :=
  let oc := r.origin - s.center
  let a := r.direction.length_squared
  let half_b := dot oc r.direction
  let c := oc.length_squared - s.radius * s.radius
  let discriminant := half_b * half_b - a * c
  if discriminant > 0 then
    let root := m.sqrt discriminant
    let temp := (-half_b - root) / a
    if temp < t_max ∧ temp > t_min then
      let rec1 := { rec with t := temp }
      let rec2 := { rec1 with p := r.at rec1.t }
      let rec3 := { rec2 with normal := (rec2.p - s.center) / s.radius }
      let outward_normal := (rec3.p - s.center) / s.radius
      let rec4 := rec3.set_face_normal r outward_normal
      let uv := get_sphere_uv m ((rec4.p - s.center) / s.radius)
      let rec5 := { rec4 with u := uv.1, v := uv.2 }
      let rec6 := { rec5 with mat_ptr := s.mat_ptr }
      (true, rec6)
    else
      let temp := (-half_b + root) / a
      if temp < t_max ∧ temp > t_min then
        let rec1 := { rec with t := temp }
        let rec2 := { rec1 with p := r.at rec1.t }
        let rec3 := { rec2 with normal := (rec2.p - s.center) / s.radius }
        let outward_normal := (rec3.p - s.center) / s.radius
        let rec4 := rec3.set_face_normal r outward_normal
        let uv := get_sphere_uv m ((rec4.p - s.center) / s.radius)
        let rec5 := { rec4 with u := uv.1, v := uv.2 }
        let rec6 := { rec5 with mat_ptr := s.mat_ptr }
        (true, rec6)
      else
        (false, rec)
  else
    (false, rec)

/-- Embedding of `sphere::bounding_box` (sphere.hpp 80-84). The output box is
threaded through like `rec` in `hit`. -/
def sphere.bounding_box (s : sphere F M) (t0 t1 : F) (output_box : aabb F) :
    Bool × aabb F :=
  let output_box1 : aabb F :=
    ⟨s.center - (⟨s.radius, s.radius, s.radius⟩ : vec3 F),
     s.center + (⟨s.radius, s.radius, s.radius⟩ : vec3 F)⟩
  (true, output_box1)

end source

/-! ## The real-number instance -/

/-- The mathematical functions over `ℝ` standing for `<cmath>`: `atan2 y x` is
the argument of `x + y i`, in `(-π, π]`. -/
noncomputable def realMath : cmath ℝ where
  sqrt := Real.sqrt
  atan2 := fun y x => Complex.arg ⟨x, y⟩
  asin := Real.arcsin
  pi := Real.pi

/-! ## Vocabulary of the properties -/

section vocabulary

variable {F : Type} [LinearOrderedField F] {M : Type}

/-- The local `oc` of `hit`: origin minus centre. -/
def sphere.oc (s : sphere F M) (r : ray F) : vec3 F := r.origin - s.center

/-- The local `a` of `hit`: squared length of the direction. -/
def quad_a (r : ray F) : F := r.direction.length_squared

/-- The local `half_b` of `hit`. -/
def sphere.half_b (s : sphere F M) (r : ray F) : F := dot (s.oc r) r.direction

/-- The local `c` of `hit`. -/
def sphere.quad_c (s : sphere F M) (r : ray F) : F :=
  (s.oc r).length_squared - s.radius * s.radius

/-- The local `discriminant` of `hit`. -/
def sphere.discriminant (s : sphere F M) (r : ray F) : F :=
  s.half_b r * s.half_b r - quad_a r * s.quad_c r

/-- The first candidate `temp` of `hit`, the near root `t1`. -/
def sphere.root1 (m : cmath F) (s : sphere F M) (r : ray F) : F :=
  (-(s.half_b r) - m.sqrt (s.discriminant r)) / quad_a r

/-- The second candidate `temp` of `hit`, the far root `t2`. -/
def sphere.root2 (m : cmath F) (s : sphere F M) (r : ray F) : F :=
  (-(s.half_b r) + m.sqrt (s.discriminant r)) / quad_a r

/-- The outward normal at a point: `(p - center) / radius`. -/
def sphere.outward_normal (s : sphere F M) (p : point3 F) : vec3 F :=
  (p - s.center) / s.radius

/-- The record written by either hit branch of `hit` for the accepted
parameter `temp`; every field is overwritten, so it does not depend on the
incoming record. -/
def sphere.fill (m : cmath F) (s : sphere F M) (r : ray F) (temp : F) : hit_record F M :=
  let n := (r.at temp - s.center) / s.radius
  let ff : Bool := decide (dot r.direction n < 0)
  { p := r.at temp
    normal := if ff then n else -n
    mat_ptr := s.mat_ptr
    t := temp
    u := (get_sphere_uv m n).1
    v := (get_sphere_uv m n).2
    front_face := ff }

/-- Component-wise order on vectors: `u <= v` in each coordinate. -/
def vec3.le (u v : vec3 F) : Prop := u.x ≤ v.x ∧ u.y ≤ v.y ∧ u.z ≤ v.z

/-- The point `p` lies inside the box: `minCorner <= p <= maxCorner`
component-wise. -/
def aabb.contains (b : aabb F) (p : point3 F) : Prop :=
  b.minCorner.le p ∧ p.le b.maxCorner

end vocabulary

/-! ## Concrete scenes used in the examples -/

section scenes

variable (F : Type) [LinearOrderedField F]

/-- The unit sphere at the origin. -/
def unitSphere : sphere F Unit := ⟨⟨0, 0, 0⟩, 1, ()⟩

/-- A sphere of radius 1 centred at `(0,0,2)`. -/
def farSphere : sphere F Unit := ⟨⟨0, 0, 2⟩, 1, ()⟩

/-- The ray from the origin along `+z`; it crosses `farSphere` at `t = 1` and
`t = 3`, and leaves `unitSphere` at `t = 1` after entering it at `t = -1`. -/
def axisRay : ray F := ⟨⟨0, 0, 0⟩, ⟨0, 0, 1⟩⟩

/-- A record with all fields cleared, standing for the caller's record. -/
def blankRecord : hit_record F Unit := ⟨⟨0, 0, 0⟩, ⟨0, 0, 0⟩, (), 0, 0, 0, false⟩

end scenes

/-! ## Unfolding lemmas for `hit` -/

section unfolding

variable {F : Type} [LinearOrderedField F] {M : Type}

theorem hit_unfold (m : cmath F) (s : sphere F M) (r : ray F) (t_min t_max : F)
    (rec : hit_record F M) :
    s.hit m r t_min t_max rec =
      if s.discriminant r > 0 then
        if s.root1 m r < t_max ∧ s.root1 m r > t_min then (true, s.fill m r (s.root1 m r))
        else if s.root2 m r < t_max ∧ s.root2 m r > t_min then
          (true, s.fill m r (s.root2 m r))
        else (false, rec)
      else (false, rec) := rfl

theorem hit_of_root1 (m : cmath F) (s : sphere F M) (r : ray F) (t_min t_max : F)
    (rec : hit_record F M) (h : 0 < s.discriminant r)
    (h1 : t_min < s.root1 m r ∧ s.root1 m r < t_max) :
    s.hit m r t_min t_max rec = (true, s.fill m r (s.root1 m r)) := by
  rw [hit_unfold, if_pos h, if_pos ⟨h1.2, h1.1⟩]

theorem hit_of_no_root (m : cmath F) (s : sphere F M) (r : ray F) (t_min t_max : F)
    (rec : hit_record F M)
    (h1 : ¬ (t_min < s.root1 m r ∧ s.root1 m r < t_max))
    (h2 : ¬ (t_min < s.root2 m r ∧ s.root2 m r < t_max)) :
    s.hit m r t_min t_max rec = (false, rec) := by
  rw [hit_unfold]
  split_ifs with h h3 h4
  · exact absurd ⟨h3.2, h3.1⟩ h1
  · exact absurd ⟨h4.2, h4.1⟩ h2
  · rfl
  · rfl

end unfolding

/-! ## Geometry of the quadratic -/

section geometry

variable {F : Type} [LinearOrderedField F] {M : Type}

theorem vec3.sub_def (u v : vec3 F) : u - v = ⟨u.x - v.x, u.y - v.y, u.z - v.z⟩ := rfl

theorem vec3.add_def (u v : vec3 F) : u + v = ⟨u.x + v.x, u.y + v.y, u.z + v.z⟩ := rfl

theorem vec3.length_squared_nonneg (v : vec3 F) : 0 ≤ v.length_squared := by
  unfold vec3.length_squared
  nlinarith [mul_self_nonneg v.x, mul_self_nonneg v.y, mul_self_nonneg v.z]

theorem vec3.length_squared_pos {v : vec3 F} (h : v ≠ ⟨0, 0, 0⟩) : 0 < v.length_squared := by
  rcases lt_or_eq_of_le v.length_squared_nonneg with h0 | h0
  · exact h0
  · exfalso
    apply h
    obtain ⟨x, y, z⟩ := v
    simp only [vec3.length_squared] at h0
    have hx : x = 0 := by
      nlinarith [mul_self_nonneg x, mul_self_nonneg y, mul_self_nonneg z]
    have hy : y = 0 := by
      nlinarith [mul_self_nonneg x, mul_self_nonneg y, mul_self_nonneg z]
    have hz : z = 0 := by
      nlinarith [mul_self_nonneg x, mul_self_nonneg y, mul_self_nonneg z]
    rw [hx, hy, hz]

end geometry

/-! ## The roots over the reals -/

section reals

variable {M : Type}

end reals

/-! ## Evaluation of the concrete scenes -/

section evaluation

theorem axis_far_disc : (farSphere ℝ).discriminant (axisRay ℝ) = 1 := by
  norm_num [sphere.discriminant, sphere.half_b, sphere.quad_c, quad_a, sphere.oc, dot,
    vec3.length_squared, vec3.sub_def, farSphere, axisRay]

theorem axis_far_root1 : (farSphere ℝ).root1 realMath (axisRay ℝ) = 1 := by
  rw [sphere.root1, axis_far_disc]
  norm_num [sphere.half_b, quad_a, sphere.oc, dot, realMath,
    vec3.length_squared, vec3.sub_def, farSphere, axisRay]

theorem axis_far_root2 : (farSphere ℝ).root2 realMath (axisRay ℝ) = 3 := by
  rw [sphere.root2, axis_far_disc]
  norm_num [sphere.half_b, quad_a, sphere.oc, dot, realMath,
    vec3.length_squared, vec3.sub_def, farSphere, axisRay]

theorem axis_far_hit_near :
    (farSphere ℝ).hit realMath (axisRay ℝ) 0 2 (blankRecord ℝ) =
      (true, (farSphere ℝ).fill realMath (axisRay ℝ) 1) := by
  rw [hit_of_root1 realMath _ _ 0 2 _ (by rw [axis_far_disc]; norm_num)
    (by rw [axis_far_root1]; norm_num), axis_far_root1]

theorem axis_far_miss :
    (farSphere ℝ).hit realMath (axisRay ℝ) 4 10 (blankRecord ℝ) = (false, blankRecord ℝ) :=
  hit_of_no_root realMath _ _ 4 10 _ (by rw [axis_far_root1]; norm_num)
    (by rw [axis_far_root2]; norm_num)

end evaluation

/-! ## Claims -/

section claims

variable {M : Type}

end claims

/-! ## Bounding box -/

section box

variable {F : Type} [LinearOrderedField F] {M : Type}

/-- C10: for every sphere and every `t0`, `t1` (and whatever the output box held
before), `bounding_box` returns `true` and the box with
`minCorner = center - (radius, radius, radius)` and
`maxCorner = center + (radius, radius, radius)`, so the result does not depend on `t0`, `t1`; for `center = (0,0,0)`, `radius = 2` the
box is exactly `(-2,-2,-2)`, `(2,2,2)`. -/
theorem C10_bounding_box (s : sphere F M) (t0 t1 : F) (output_box : aabb F) :
    (s.bounding_box t0 t1 output_box).1 = true ∧
    (s.bounding_box t0 t1 output_box).2.minCorner =
      s.center - (⟨s.radius, s.radius, s.radius⟩ : vec3 F) ∧
    (s.bounding_box t0 t1 output_box).2.maxCorner =
      s.center + (⟨s.radius, s.radius, s.radius⟩ : vec3 F) ∧
    (∀ t0' t1' : F, ∀ box' : aabb F,
      s.bounding_box t0' t1' box' = s.bounding_box t0 t1 output_box) ∧
    ((⟨⟨0, 0, 0⟩, 2, s.mat_ptr⟩ : sphere F M).bounding_box t0 t1 output_box).2.minCorner =
      ⟨-2, -2, -2⟩ ∧
    ((⟨⟨0, 0, 0⟩, 2, s.mat_ptr⟩ : sphere F M).bounding_box t0 t1 output_box).2.maxCorner =
      ⟨2, 2, 2⟩ := by
  refine ⟨rfl, rfl, rfl, fun _ _ _ => rfl, ?_, ?_⟩
  · simp [sphere.bounding_box, vec3.sub_def]
  · simp [sphere.bounding_box, vec3.add_def]

end box

/-! ## Bounding box against the sphere -/

section boxgeometry

variable {M : Type}

/-- A point within squared distance `radius^2` of the centre is inside the
bounding box, for a non-negative radius. -/
theorem box_contains_of_sq_le (s : sphere ℝ M) (t0 t1 : ℝ) (b : aabb ℝ) (p : point3 ℝ)
    (hr : 0 ≤ s.radius) (hp : (p - s.center).length_squared ≤ s.radius * s.radius) :
    (s.bounding_box t0 t1 b).2.contains p := by
  simp only [vec3.length_squared, vec3.sub_def] at hp
  have hx : (p.x - s.center.x) * (p.x - s.center.x) ≤ s.radius * s.radius := by
    nlinarith [mul_self_nonneg (p.y - s.center.y), mul_self_nonneg (p.z - s.center.z)]
  have hy : (p.y - s.center.y) * (p.y - s.center.y) ≤ s.radius * s.radius := by
    nlinarith [mul_self_nonneg (p.x - s.center.x), mul_self_nonneg (p.z - s.center.z)]
  have hz : (p.z - s.center.z) * (p.z - s.center.z) ≤ s.radius * s.radius := by
    nlinarith [mul_self_nonneg (p.x - s.center.x), mul_self_nonneg (p.y - s.center.y)]
  have ax : -s.radius ≤ p.x - s.center.x ∧ p.x - s.center.x ≤ s.radius :=
    abs_le_of_sq_le_sq' (by rw [sq, sq]; exact hx) hr
  have ay : -s.radius ≤ p.y - s.center.y ∧ p.y - s.center.y ≤ s.radius :=
    abs_le_of_sq_le_sq' (by rw [sq, sq]; exact hy) hr
  have az : -s.radius ≤ p.z - s.center.z ∧ p.z - s.center.z ≤ s.radius :=
    abs_le_of_sq_le_sq' (by rw [sq, sq]; exact hz) hr
  simp only [aabb.contains, vec3.le, sphere.bounding_box, vec3.sub_def, vec3.add_def]
  refine ⟨⟨?_, ?_, ?_⟩, ⟨?_, ?_, ?_⟩⟩ <;> linarith [ax.1, ax.2, ay.1, ay.2, az.1, az.2]

end boxgeometry

/-! ## Claims on the bounding box and the hit point -/

section boxclaims

variable {M : Type}

/-- C12: for every sphere with `radius >= 0`, the box returned by `bounding_box`
contains every point `p` with `|p - center| <= radius`, and every axis-aligned
box `[lo, hi]` containing all such points satisfies `lo <= minCorner` and
`maxCorner <= hi` component-wise. -/
theorem C12_box_is_tight (s : sphere ℝ M) (t0 t1 : ℝ) (b : aabb ℝ) (hr : 0 ≤ s.radius) :
    (∀ p : point3 ℝ, (p - s.center).length realMath ≤ s.radius →
      (s.bounding_box t0 t1 b).2.contains p) ∧
    (∀ lo hi : point3 ℝ,
      (∀ p : point3 ℝ, (p - s.center).length realMath ≤ s.radius → lo.le p ∧ p.le hi) →
      lo.le (s.bounding_box t0 t1 b).2.minCorner ∧
      (s.bounding_box t0 t1 b).2.maxCorner.le hi) := by
  constructor
  · intro p hp
    apply box_contains_of_sq_le s t0 t1 b p hr
    have hs : Real.sqrt (p - s.center).length_squared ≤ s.radius := hp
    rw [← sq]
    exact (Real.sqrt_le_left hr).mp hs
  · intro lo hi hbox
    have reach : ∀ e : vec3 ℝ, e.length_squared = s.radius * s.radius →
        ((s.center + e) - s.center).length realMath ≤ s.radius := by
      intro e he
      have : ((s.center + e) - s.center).length_squared = s.radius * s.radius := by
        rw [← he]
        simp only [vec3.length_squared, vec3.sub_def, vec3.add_def]
        ring
      show Real.sqrt ((s.center + e) - s.center).length_squared ≤ s.radius
      rw [this, Real.sqrt_mul_self hr]
    have mx := hbox _ (reach ⟨-s.radius, 0, 0⟩ (by simp [vec3.length_squared]))
    have my := hbox _ (reach ⟨0, -s.radius, 0⟩ (by simp [vec3.length_squared]))
    have mz := hbox _ (reach ⟨0, 0, -s.radius⟩ (by simp [vec3.length_squared]))
    have px := hbox _ (reach ⟨s.radius, 0, 0⟩ (by simp [vec3.length_squared]))
    have py := hbox _ (reach ⟨0, s.radius, 0⟩ (by simp [vec3.length_squared]))
    have pz := hbox _ (reach ⟨0, 0, s.radius⟩ (by simp [vec3.length_squared]))
    simp only [vec3.le, vec3.add_def] at mx my mz px py pz
    simp only [vec3.le, sphere.bounding_box, vec3.sub_def, vec3.add_def]
    refine ⟨⟨?_, ?_, ?_⟩, ⟨?_, ?_, ?_⟩⟩
    · linarith [mx.1.1]
    · linarith [my.1.2.1]
    · linarith [mz.1.2.2]
    · linarith [px.2.1]
    · linarith [py.2.2.1]
    · linarith [pz.2.2.2]

/-- C12 (witness): the unit sphere at the origin, radius `1 >= 0`. -/
theorem C12_box_is_tight_witness :
    0 ≤ (unitSphere ℝ).radius ∧
    ((∀ p : point3 ℝ, (p - (unitSphere ℝ).center).length realMath ≤ (unitSphere ℝ).radius →
      ((unitSphere ℝ).bounding_box 0 1 ⟨⟨0, 0, 0⟩, ⟨0, 0, 0⟩⟩).2.contains p) ∧
    (∀ lo hi : point3 ℝ,
      (∀ p : point3 ℝ, (p - (unitSphere ℝ).center).length realMath ≤ (unitSphere ℝ).radius →
        lo.le p ∧ p.le hi) →
      lo.le ((unitSphere ℝ).bounding_box 0 1 ⟨⟨0, 0, 0⟩, ⟨0, 0, 0⟩⟩).2.minCorner ∧
      ((unitSphere ℝ).bounding_box 0 1 ⟨⟨0, 0, 0⟩, ⟨0, 0, 0⟩⟩).2.maxCorner.le hi)) :=
  ⟨by norm_num [unitSphere],
   C12_box_is_tight (unitSphere ℝ) 0 1 ⟨⟨0, 0, 0⟩, ⟨0, 0, 0⟩⟩ (by norm_num [unitSphere])⟩

end boxclaims

/-! ## Texture coordinates -/

section uvgeometry

variable {M : Type}

theorem uv_fst (p : vec3 ℝ) :
    (get_sphere_uv realMath p).1 =
      1 - (Complex.arg ⟨p.x, p.z⟩ + Real.pi) / (2 * Real.pi) := rfl

theorem uv_snd (p : vec3 ℝ) :
    (get_sphere_uv realMath p).2 = (Real.arcsin p.y + Real.pi / 2) / Real.pi := rfl

end uvgeometry

/-! ## Claims on the texture coordinates -/

section uvclaims

variable {M : Type}

/-- C14: `get_sphere_uv` maps the local point `(1,0,0)` to `u = 0.5`, `v = 0.5`;
every local point with `y = 0` gets `v = 0.5`, and every local point with
`z = 0` and `x > 0` gets `u = 0.5`. -/
theorem C14_uv_reference (p : vec3 ℝ) :
    get_sphere_uv realMath ⟨1, 0, 0⟩ = (1 / 2, 1 / 2) ∧
    (p.y = 0 → (get_sphere_uv realMath p).2 = 1 / 2) ∧
    (p.z = 0 → 0 < p.x → (get_sphere_uv realMath p).1 = 1 / 2) := by
  have hpi : Real.pi ≠ 0 := ne_of_gt Real.pi_pos
  have hv : ∀ q : vec3 ℝ, q.y = 0 → (get_sphere_uv realMath q).2 = 1 / 2 := by
    intro q hq
    rw [uv_snd, hq, Real.arcsin_zero]
    field_simp
    ring
  have hu : ∀ q : vec3 ℝ, q.z = 0 → 0 < q.x → (get_sphere_uv realMath q).1 = 1 / 2 := by
    intro q hz hx
    have harg : Complex.arg ⟨q.x, q.z⟩ = 0 := by
      rw [hz]
      exact Complex.arg_ofReal_of_nonneg (le_of_lt hx)
    rw [uv_fst, harg]
    field_simp
    ring
  exact ⟨Prod.ext (hu ⟨1, 0, 0⟩ rfl one_pos) (hv ⟨1, 0, 0⟩ rfl), hv p, hu p⟩

/-- C14 (witness): the local point `(2,0,0)` has `y = 0`, `z = 0` and `x > 0`. -/
theorem C14_uv_reference_witness :
    ((⟨2, 0, 0⟩ : vec3 ℝ).y = 0 ∧ (get_sphere_uv realMath ⟨2, 0, 0⟩).2 = 1 / 2) ∧
    ((⟨2, 0, 0⟩ : vec3 ℝ).z = 0 ∧ 0 < (⟨2, 0, 0⟩ : vec3 ℝ).x ∧
      (get_sphere_uv realMath ⟨2, 0, 0⟩).1 = 1 / 2) :=
  ⟨⟨rfl, (C14_uv_reference ⟨2, 0, 0⟩).2.1 rfl⟩,
   ⟨rfl, two_pos, (C14_uv_reference ⟨2, 0, 0⟩).2.2 rfl two_pos⟩⟩

end uvclaims

/-! ## Divisions executed by `hit` -/

section divisions

variable {F : Type} [LinearOrderedField F] {M : Type}

end divisions

/-! ## Claims on degenerate inputs, face orientation and the output record -/

section behaviourclaims

variable {M : Type}

end behaviourclaims

/-! ## Frame of the output record -/

section frame

variable {F : Type} [LinearOrderedField F] {M : Type}

/-- C18: with `hit` as a function from `(sphere, ray, tMin, tMax, rec)` to
`(bool, rec')`: whenever the result is `false`, `rec' = rec` in every field;
the flag never depends on the incoming record; and whenever the result is
`true`, `rec'` (its fields `t`, `p`, `normal`, `u`, `v`, `mat_ptr`, and
`front_face` too) is the same for every incoming record. -/
theorem C18_record_frame (m : cmath F) (s : sphere F M) (r : ray F) (tMin tMax : F)
    (rec : hit_record F M) :
    ((s.hit m r tMin tMax rec).1 = false → (s.hit m r tMin tMax rec).2 = rec) ∧
    (∀ other : hit_record F M,
      (s.hit m r tMin tMax other).1 = (s.hit m r tMin tMax rec).1 ∧
      ((s.hit m r tMin tMax rec).1 = true →
        (s.hit m r tMin tMax other).2.t = (s.hit m r tMin tMax rec).2.t ∧
        (s.hit m r tMin tMax other).2.p = (s.hit m r tMin tMax rec).2.p ∧
        (s.hit m r tMin tMax other).2.normal = (s.hit m r tMin tMax rec).2.normal ∧
        (s.hit m r tMin tMax other).2.u = (s.hit m r tMin tMax rec).2.u ∧
        (s.hit m r tMin tMax other).2.v = (s.hit m r tMin tMax rec).2.v ∧
        (s.hit m r tMin tMax other).2.mat_ptr = (s.hit m r tMin tMax rec).2.mat_ptr ∧
        (s.hit m r tMin tMax other).2.front_face =
          (s.hit m r tMin tMax rec).2.front_face)) := by
  constructor
  · intro h
    rw [hit_unfold] at h ⊢
    split_ifs at h ⊢ <;> rfl
  · intro other
    rw [hit_unfold, hit_unfold]
    split_ifs
    · exact ⟨rfl, fun _ => ⟨rfl, rfl, rfl, rfl, rfl, rfl, rfl⟩⟩
    · exact ⟨rfl, fun _ => ⟨rfl, rfl, rfl, rfl, rfl, rfl, rfl⟩⟩
    · exact ⟨rfl, fun h => absurd h (by simp)⟩
    · exact ⟨rfl, fun h => absurd h (by simp)⟩

/-- C18 (witness): the axis ray against the sphere at `(0,0,2)`: a miss on
`(4, 10)` returns the caller's record, and the hit on `(0, 2)` writes the same
`t` whatever the incoming record. -/
theorem C18_record_frame_witness :
    (((farSphere ℝ).hit realMath (axisRay ℝ) 4 10 (blankRecord ℝ)).1 = false ∧
      ((farSphere ℝ).hit realMath (axisRay ℝ) 4 10 (blankRecord ℝ)).2 = blankRecord ℝ) ∧
    (((farSphere ℝ).hit realMath (axisRay ℝ) 0 2 (blankRecord ℝ)).1 = true ∧
      ((farSphere ℝ).hit realMath (axisRay ℝ) 0 2
          ⟨⟨1, 1, 1⟩, ⟨1, 1, 1⟩, (), 1, 1, 1, true⟩).2.t =
        ((farSphere ℝ).hit realMath (axisRay ℝ) 0 2 (blankRecord ℝ)).2.t) := by
  have h1 : ((farSphere ℝ).hit realMath (axisRay ℝ) 4 10 (blankRecord ℝ)).1 = false := by
    rw [axis_far_miss]
  have h2 : ((farSphere ℝ).hit realMath (axisRay ℝ) 0 2 (blankRecord ℝ)).1 = true := by
    rw [axis_far_hit_near]
  exact ⟨⟨h1, (C18_record_frame realMath (farSphere ℝ) (axisRay ℝ) 4 10 (blankRecord ℝ)).1 h1⟩,
    ⟨h2, ((C18_record_frame realMath (farSphere ℝ) (axisRay ℝ) 0 2 (blankRecord ℝ)).2
      ⟨⟨1, 1, 1⟩, ⟨1, 1, 1⟩, (), 1, 1, 1, true⟩).2 h2 |>.1⟩⟩

end frame


end rayt
